import Mathlib

/-!
Shallow embedding of the profile/event state tracker implemented in
`src/v-ing_agents/introduction_agent.py` and
`src/v-ing_agents/experience_retriever_agent.py`.

Python dictionaries are modelled as association lists without duplicate keys
(`alookup`, `aset`); Python values that occur in the tracked records are
modelled by `PyVal` (`None`, strings, integers).  Functions that mutate
`session_state` in place are modelled as functions returning the updated
state together with the message they return.  Python string formatting that
the claims do not depend on is reproduced as plain string concatenation.
-/

/-- Values stored in the Python dictionaries of this repository: `None`,
strings, and integers (the `age` field is coerced to `int`). -/
inductive PyVal where
  | none : PyVal
  | str : String → PyVal
  | int : Int → PyVal
  deriving DecidableEq, Repr

/-- Python dictionary with arbitrary tracked values. -/
abbrev PyDict := List (String × PyVal)

/-- Python dictionary whose values are strings (the `current_event` record of
the experience agent: its tools only ever store stripped strings). -/
abbrev StrDict := List (String × String)

/-- Dictionary lookup: `d.get(key)`, returning `none` when the key is absent. -/
def alookup {α : Type} : List (String × α) → String → Option α
  | [], _ => Option.none
  | (k, v) :: rest, key => if k = key then some v else alookup rest key

/-- Dictionary assignment `d[key] = val`: overwrite in place when the key is
present, append otherwise. -/
def aset {α : Type} : List (String × α) → String → α → List (String × α)
  | [], key, val => [(key, val)]
  | (k, v) :: rest, key, val =>
      if k = key then (k, val) :: rest else (k, v) :: aset rest key val

/-- Key list of a dictionary, in insertion order (`d.keys()`). -/
def akeys {α : Type} (d : List (String × α)) : List String := d.map Prod.fst

/-- Generic form of the update loops of both agents: fold over the entries of
an `updates` dictionary, assigning `t kv` under key `kv.1` for every entry
that passes the filter `p`, and skipping the rest. -/
def applyEntries {α : Type} (p : String × α → Bool) (t : String × α → α)
    (init : List (String × α)) (entries : List (String × α)) :
    List (String × α) :=
  entries.foldl (fun d kv => if p kv then aset d kv.1 (t kv) else d) init

/-- Python truthiness of the values in `PyVal`: `None`, `""` and `0` are
falsy, everything else is truthy. -/
def truthy : PyVal → Bool
  | PyVal.none => false
  | PyVal.str s => if s = "" then false else true
  | PyVal.int n => if n = 0 then false else true

/-- Truthiness of `d.get(k)`: an absent key behaves like `None`. -/
def truthyOpt : Option PyVal → Bool
  | Option.none => false
  | some v => truthy v

/-- Truthiness of `d.get(k)` for a string-valued dictionary. -/
def strTruthyOpt : Option String → Bool
  | Option.none => false
  | some s => if s = "" then false else true

/-- Condition `v is not None and v != ""` used by `_merge_profile` and
`_persist_memory` (an `int` value is never equal to `""` in Python). -/
def nonEmptyVal : PyVal → Bool
  | PyVal.none => false
  | PyVal.str s => if s = "" then false else true
  | PyVal.int _ => true

/-- Python `str()` on the values of `PyVal`. -/
def pyStr : PyVal → String
  | PyVal.none => "None"
  | PyVal.str s => s
  | PyVal.int n => toString n

/-- Single-quote character, used to reproduce Python `repr` of strings. -/
def apos : String := String.singleton (Char.ofNat 39)

/-- Python `repr` of a list of strings, as interpolated by f-strings such as
`f"Missing fields: \x7bmissing_fields\x7d"`. -/
def pyStrListRepr (l : List String) : String :=
  "[" ++ String.intercalate ", " (l.map (fun s => apos ++ s ++ apos)) ++ "]"

/-- Python `s.strip()`: drop leading and trailing whitespace. -/
def pyStrip (s : String) : String :=
  String.mk
    (((s.toList.dropWhile Char.isWhitespace).reverse.dropWhile
      Char.isWhitespace).reverse)

/-- Python `s.lower()` (the confirmation phrases are ASCII). -/
def pyLower (s : String) : String := String.mk (s.toList.map Char.toLower)

/-- Lexicographic comparison of character lists by code point, as Python
compares strings. -/
def charListLe : List Char → List Char → Bool
  | [], _ => true
  | _ :: _, [] => false
  | a :: as, b :: bs =>
      if a.toNat < b.toNat then true
      else if b.toNat < a.toNat then false
      else charListLe as bs

/-- Python string comparison `a <= b`, used by `sorted` on field names. -/
def pyStrLe (a b : String) : Bool := charListLe a.toList b.toList

/-- No two adjacent underscores (part of the grammar of Python `int()`
literals, where underscores may only separate digits). -/
def noDoubleUnderscore : List Char → Bool
  | a :: b :: rest =>
      if a = '_' ∧ b = '_' then false else noDoubleUnderscore (b :: rest)
  | _ => true

/-- Character list acceptable as the digit part of a Python `int()` literal:
non-empty, all digits or underscores, first and last characters digits, and
no two adjacent underscores. -/
def validDigitPart (cs : List Char) : Bool :=
  match cs with
  | [] => false
  | c :: _ =>
      c.isDigit && cs.all (fun d => d.isDigit || d == '_') &&
      ((cs.getLast?.map Char.isDigit).getD false) &&
      noDoubleUnderscore cs

/-- Natural number denoted by a list of decimal digits. -/
def digitsVal (cs : List Char) : Nat :=
  cs.foldl (fun acc c => 10 * acc + (c.toNat - Char.toNat '0')) 0

/-- Python `int(s)` on a whitespace-free token: optional sign followed by a
digit part (underscores between digits allowed); `Option.none` models the
`ValueError` raised on any other input. -/
def pyIntParse (s : String) : Option Int :=
  match s.toList with
  | '+' :: rest =>
      if validDigitPart rest then
        some ((digitsVal (rest.filter (fun c => !(c == '_'))) : Nat) : Int)
      else Option.none
  | '-' :: rest =>
      if validDigitPart rest then
        some (-((digitsVal (rest.filter (fun c => !(c == '_'))) : Nat) : Int))
      else Option.none
  | other =>
      if validDigitPart other then
        some ((digitsVal (other.filter (fun c => !(c == '_'))) : Nat) : Int)
      else Option.none

/-- First whitespace-delimited token of a string: `s.split()[0]`, with
`Option.none` modelling the `IndexError` when the split list is empty. -/
def firstToken (s : String) : Option String :=
  match s.toList.dropWhile Char.isWhitespace with
  | [] => Option.none
  | c :: rest =>
    some (String.mk ((c :: rest).takeWhile (fun d => !d.isWhitespace)))

/-- Age coercion of `update_profile` / `update_multiple_fields` in
`introduction_agent.py`: `int(str(value).strip().split()[0])` inside
`try/except`, keeping the raw value whenever the parse raises. -/
def age_coerce (value : PyVal) : PyVal :=
  match firstToken (pyStrip (pyStr value)) with
  | some tok =>
      match pyIntParse tok with
      | some n => PyVal.int n
      | Option.none => value
  | Option.none => value

/-- Specification-side definition, written from the spec text of
`missingFields(record, requiredFields)`: the ordered subset of the required
fields for which the record has no non-empty trimmed value. -/
def specMissingFields (record : StrDict) (required : List String) :
    List String :=
  required.filter fun f =>
    match alookup record f with
    | Option.none => true
    | some v => if pyStrip v = "" then true else false

/-- Specification-side `missingFields` over records with `PyVal` values: a
field is missing when it is absent, `None`, or a string that trims to empty
(integer values are non-empty values). -/
def specMissingFieldsPy (record : PyDict) (required : List String) :
    List String :=
  required.filter fun f =>
    match alookup record f with
    | Option.none => true
    | some PyVal.none => true
    | some (PyVal.str s) => if pyStrip s = "" then true else false
    | some (PyVal.int _) => false

namespace Intro

/-- Field names of the `UserProfile` model of `introduction_agent.py`, in
declared order. -/
def PROFILE_FIELDS : List String :=
  ["name", "age", "current_occupation", "desired_career", "work_experience"]

/-- Session state of the introduction agent: the `user_profile` dictionary
and the `profile_confirmed` flag. -/
structure IntroSession where
  user_profile : PyDict := []
  profile_confirmed : Bool := false
  deriving DecidableEq, Repr

/-- Function `_merge_profile` of `introduction_agent.py`: start from a copy
of the in-process memory and overwrite with every non-`None`, non-empty value
of the session state's `user_profile`. -/
def merge_profile (profile_memory : PyDict) (in_state : PyDict) : PyDict :=
  in_state.foldl
    (fun merged kv => if nonEmptyVal kv.2 then aset merged kv.1 kv.2 else merged)
    profile_memory

/-- Function `_persist_memory` of `introduction_agent.py`: write every
non-`None`, non-empty value of the profile into the in-process memory. -/
def persist_memory (profile_memory : PyDict) (profile : PyDict) : PyDict :=
  profile.foldl
    (fun mem kv => if nonEmptyVal kv.2 then aset mem kv.1 kv.2 else mem)
    profile_memory

/-- Function `update_profile` of `introduction_agent.py`.  The in-process
memory `profile_memory` (a module-level global in the source) is passed and
returned explicitly. -/
def update_profile (profile_memory : PyDict) (session_state : IntroSession)
    (field : String) (value : PyVal) : PyDict × IntroSession × String :=
  let value := if field = "age" then age_coerce value else value
  let profile := merge_profile profile_memory session_state.user_profile
  let profile := aset profile field value
  let profile_memory := persist_memory profile_memory profile
  (profile_memory, { session_state with user_profile := profile },
    "Updated " ++ field ++ ": " ++ pyStr value)

/-- Function `update_multiple_fields` of `introduction_agent.py`: entries
whose value is `None` or `""` are skipped, all other entries are applied
(with the age coercion) regardless of their field name, and the returned
message interpolates `list(updates.keys())`. -/
def update_multiple_fields (profile_memory : PyDict) (session_state : IntroSession)
    (updates : PyDict) : PyDict × IntroSession × String :=
  let profile := merge_profile profile_memory session_state.user_profile
  let profile := updates.foldl
    (fun p kv =>
      if kv.2 = PyVal.none ∨ kv.2 = PyVal.str "" then p
      else aset p kv.1 (if kv.1 = "age" then age_coerce kv.2 else kv.2))
    profile
  let profile_memory := persist_memory profile_memory profile
  (profile_memory, { session_state with user_profile := profile },
    "Updated multiple fields: " ++ pyStrListRepr (akeys updates))

/-- Function `confirm_profile` of `introduction_agent.py`: it sets
`profile_confirmed` to `True` unconditionally. -/
def confirm_profile (session_state : IntroSession) : IntroSession × String :=
  ({ session_state with profile_confirmed := true }, "Profile confirmed!")

/-- Function `check_profile_completeness` of `introduction_agent.py`.  The
first component is the `missing_fields` list the source builds with five
truthiness tests in declared field order; the second is the returned
message. -/
def check_profile_completeness (session_state : IntroSession) :
    List String × String :=
  let profile := session_state.user_profile
  let missing_fields : List String :=
    (if truthyOpt (alookup profile "name") then [] else ["name"]) ++
    (if truthyOpt (alookup profile "age") then [] else ["age"]) ++
    (if truthyOpt (alookup profile "current_occupation") then []
      else ["current_occupation"]) ++
    (if truthyOpt (alookup profile "desired_career") then []
      else ["desired_career"]) ++
    (if truthyOpt (alookup profile "work_experience") then []
      else ["work_experience"])
  (missing_fields,
    if missing_fields = [] then "Profile is complete"
    else "Missing fields: " ++ pyStrListRepr missing_fields)

end Intro

namespace Exp

/-- Required fields of the experience record, in declared order
(`REQUIRED_EVENT_FIELDS` of `experience_retriever_agent.py`). -/
def REQUIRED_EVENT_FIELDS : List String :=
  ["event_overview", "when_happened", "what_happened", "peak_moment"]

/-- Set `CONFIRMATION_PHRASES` of `experience_retriever_agent.py`. -/
def CONFIRMATION_PHRASES : List String :=
  ["yes", "yes.", "yes!",
   "yes, that" ++ apos ++ "s right", "yes that" ++ apos ++ "s right",
   "yes, correct", "correct", "correct.", "correct!",
   "that" ++ apos ++ "s correct", "that" ++ apos ++ "s right",
   "that is correct", "looks good", "looks good.", "looks good to me",
   "sounds good", "sounds good.", "sounds right", "all good", "all good.",
   "perfect", "perfect.", "confirmed", "confirmed.",
   "absolutely", "absolutely."]

/-- Structured output model `EventDetails` of `experience_retriever_agent.py`. -/
structure EventDetails where
  event_id : Int
  event_number : Int
  event_phase : String
  name : Option String := Option.none
  age : Option String := Option.none
  current_occupation : Option String := Option.none
  desired_career : Option String := Option.none
  work_experience : Option String := Option.none
  event_overview : Option String := Option.none
  when_happened : Option String := Option.none
  what_happened : Option String := Option.none
  peak_moment : Option String := Option.none
  is_complete : Bool := false
  deriving DecidableEq, Repr

/-- Session state dictionary of the experience agent, with one typed field
per key the source reads or writes (`Option.none` models an absent key). -/
structure ExpSession where
  experience_no : Option Int := Option.none
  stage : Option String := Option.none
  name : Option String := Option.none
  age : Option PyVal := Option.none
  current_occupation : Option String := Option.none
  desired_career : Option String := Option.none
  work_experience : Option String := Option.none
  current_event : StrDict := []
  completed_event : Option EventDetails := Option.none
  session_complete : Bool := false
  deriving DecidableEq, Repr

/-- Function `_is_confirmation_phrase` of `experience_retriever_agent.py`:
`text.strip().lower() in CONFIRMATION_PHRASES`. -/
def is_confirmation_phrase (text : String) : Bool :=
  pyLower (pyStrip text) ∈ CONFIRMATION_PHRASES

/-- Function `_all_required_fields_present` of
`experience_retriever_agent.py`: every required field of `current_event`
must be truthy and have a non-empty stripped string form. -/
def all_required_fields_present (s : ExpSession) : Bool :=
  REQUIRED_EVENT_FIELDS.all fun field =>
    match alookup s.current_event field with
    | Option.none => false
    | some value => if value = "" ∨ pyStrip value = "" then false else true

/-- Tool `update_single_field` of `experience_retriever_agent.py`. -/
def update_single_field (s : ExpSession) (field_name field_value : String) :
    ExpSession × String :=
  let field_name := pyStrip field_name
  let field_value := pyStrip field_value
  if field_name ∉ REQUIRED_EVENT_FIELDS then
    (s, "Invalid field. Use one of: " ++ String.intercalate ", " REQUIRED_EVENT_FIELDS)
  else if field_value = "" then
    (s, "No update made to " ++ field_name ++ ".")
  else
    ({ s with current_event := aset s.current_event field_name field_value },
      "Stored " ++ field_name ++ ".")

/-- Loop condition of `update_multiple_fields` in
`experience_retriever_agent.py`:
`field in REQUIRED_EVENT_FIELDS and value and value.strip()`. -/
def validEntry (kv : String × String) : Bool :=
  if kv.1 ∈ REQUIRED_EVENT_FIELDS ∧ kv.2 ≠ "" ∧ pyStrip kv.2 ≠ "" then true else false

/-- Tool `update_multiple_fields` of `experience_retriever_agent.py`: one
loop stores each valid entry's stripped value in `current_event` and in the
local `applied` dictionary, and the message joins `sorted(applied.keys())`. -/
def update_multiple_fields (s : ExpSession) (updates : StrDict) :
    ExpSession × String :=
  let result := updates.foldl
    (fun (acc : StrDict × StrDict) kv =>
      if validEntry kv then
        (aset acc.1 kv.1 (pyStrip kv.2), aset acc.2 kv.1 (pyStrip kv.2))
      else acc)
    (s.current_event, [])
  if akeys result.2 = [] then
    ({ s with current_event := result.1 }, "No valid fields provided.")
  else
    ({ s with current_event := result.1 },
      "Stored fields: " ++
        String.intercalate ", "
          (List.insertionSort (fun a b => pyStrLe a b = true) (akeys result.2)))

/-- Missing-field computation of `confirm_completeness` (lines 152-155 of
`experience_retriever_agent.py`): the required fields whose `current_event`
value is absent or falsy, in declared order. -/
def event_missing_fields (current_event : StrDict) : List String :=
  REQUIRED_EVENT_FIELDS.filter
    (fun field => !(strTruthyOpt (alookup current_event field)))

/-- Function `_finalize_completed_event` of `experience_retriever_agent.py`:
builds the `EventDetails` snapshot, stores it under `completed_event` and
sets `session_complete` to `True`. -/
def finalize_completed_event (s : ExpSession) : EventDetails × ExpSession :=
  let experience_no := s.experience_no.getD 1
  let event_phase :=
    match s.stage with
    | some st => if st = "" then "experience_" ++ toString experience_no else st
    | Option.none => "experience_" ++ toString experience_no
  let event_details : EventDetails :=
    { event_id := experience_no
      event_number := experience_no
      event_phase := event_phase
      name := s.name
      age := s.age.map pyStr
      current_occupation := s.current_occupation
      desired_career := s.desired_career
      work_experience := s.work_experience
      event_overview := alookup s.current_event "event_overview"
      when_happened := alookup s.current_event "when_happened"
      what_happened := alookup s.current_event "what_happened"
      peak_moment := alookup s.current_event "peak_moment"
      is_complete := true }
  (event_details,
    { s with completed_event := some event_details, session_complete := true })

/-- Result dictionary returned by the tool `confirm_completeness`. -/
inductive ConfirmOutcome where
  | incomplete (missing_fields : List String) (message : String)
  | complete (message : String) (event_details : EventDetails)
  deriving DecidableEq, Repr

/-- Tool `confirm_completeness` of `experience_retriever_agent.py`: report
the missing fields when any required field is absent or falsy, otherwise
finalize the event. -/
def confirm_completeness (s : ExpSession) : ExpSession × ConfirmOutcome :=
  let missing_fields := event_missing_fields s.current_event
  if missing_fields ≠ [] then
    (s, ConfirmOutcome.incomplete missing_fields
      ("Still need: " ++ String.intercalate ", " missing_fields))
  else
    let r := finalize_completed_event s
    (r.2, ConfirmOutcome.complete
      "All experience details are confirmed and complete." r.1)

/-- Confirmation-phrase branch of the `run_experience_session` loop (lines
314-318 of `experience_retriever_agent.py`): the event is finalized exactly
when the user message is a confirmation phrase and all required fields are
present. -/
def run_loop_confirm_branch (s : ExpSession) (user_message : String) :
    Option (EventDetails × ExpSession) :=
  if is_confirmation_phrase user_message && all_required_fields_present s then
    some (finalize_completed_event s)
  else Option.none

/-- Error message of the `profile_data` name guard of
`run_experience_session`. -/
def nameRequiredMsg : String :=
  "profile_data must include the user" ++ apos ++ "s name."

/-- Name guard at the top of `run_experience_session` (lines 263-264 of
`experience_retriever_agent.py`), executed before the agent is constructed
or any session state is touched: raise `ValueError` unless
`profile_data.get("name")` is truthy. -/
def run_experience_session_guard (profile_data : PyDict) : Except String Unit :=
  if !(truthyOpt (alookup profile_data "name")) then
    Except.error nameRequiredMsg
  else Except.ok ()

end Exp

/-! ### Association-list lemmas -/

theorem alookup_aset_self {α : Type} (d : List (String × α)) (k : String)
    (v : α) : alookup (aset d k v) k = some v := by
  induction d with
  | nil => simp [aset, alookup]
  | cons kv rest ih =>
    obtain ⟨a, w⟩ := kv
    by_cases h : a = k
    · subst h; simp [aset, alookup]
    · simp [aset, alookup, h, ih]

theorem alookup_aset_ne {α : Type} (d : List (String × α)) {k k' : String}
    (v : α) (h : k' ≠ k) : alookup (aset d k v) k' = alookup d k' := by
  have h' : k ≠ k' := Ne.symm h
  induction d with
  | nil => simp [aset, alookup, h']
  | cons kv rest ih =>
    obtain ⟨a, w⟩ := kv
    by_cases ha : a = k
    · subst ha
      simp [aset, alookup, h']
    · by_cases ha' : a = k'
      · subst ha'; simp [aset, alookup, ha]
      · simp [aset, alookup, ha, ha', ih]

theorem alookup_eq_none_of_not_mem {α : Type} {d : List (String × α)}
    {k : String} (h : k ∉ akeys d) : alookup d k = Option.none := by
  induction d with
  | nil => rfl
  | cons kv rest ih =>
    obtain ⟨a, w⟩ := kv
    simp only [akeys, List.map_cons, List.mem_cons] at h
    push_neg at h
    have ha : a ≠ k := Ne.symm h.1
    simp [alookup, ha, ih (by simp [akeys, h.2])]

theorem akeys_aset_mem {α : Type} (d : List (String × α)) (k : String) (v : α)
    (h : k ∈ akeys d) : akeys (aset d k v) = akeys d := by
  induction d with
  | nil => simp [akeys] at h
  | cons kv rest ih =>
    obtain ⟨a, w⟩ := kv
    by_cases ha : a = k
    · subst ha; simp [aset, akeys]
    · simp only [akeys, List.map_cons, List.mem_cons] at h
      rcases h with h | h
      · exact absurd h.symm ha
      · have hih := ih (by simpa [akeys] using h)
        simp only [akeys] at hih
        simp [aset, akeys, ha, hih]

theorem akeys_aset_not_mem {α : Type} (d : List (String × α)) (k : String)
    (v : α) (h : k ∉ akeys d) : akeys (aset d k v) = akeys d ++ [k] := by
  induction d with
  | nil => simp [aset, akeys]
  | cons kv rest ih =>
    obtain ⟨a, w⟩ := kv
    simp only [akeys, List.map_cons, List.mem_cons] at h
    push_neg at h
    have ha : a ≠ k := Ne.symm h.1
    have hih := ih (by simp [akeys, h.2])
    simp only [akeys] at hih
    simp [aset, akeys, ha, hih]

theorem nodup_akeys_aset {α : Type} {d : List (String × α)} (k : String)
    (v : α) (h : (akeys d).Nodup) : (akeys (aset d k v)).Nodup := by
  by_cases hk : k ∈ akeys d
  · rw [akeys_aset_mem d k v hk]; exact h
  · rw [akeys_aset_not_mem d k v hk]
    simp [List.nodup_append, h, hk]

theorem applyEntries_cons {α : Type} (p : String × α → Bool)
    (t : String × α → α) (init : List (String × α)) (kv : String × α)
    (rest : List (String × α)) :
    applyEntries p t init (kv :: rest) =
      applyEntries p t (if p kv then aset init kv.1 (t kv) else init) rest :=
  rfl

theorem applyEntries_lookup {α : Type} (p : String × α → Bool)
    (t : String × α → α) (entries : List (String × α))
    (init : List (String × α)) (k : String) (hn : (akeys entries).Nodup) :
    alookup (applyEntries p t init entries) k =
      match alookup entries k with
      | some v => if p (k, v) then some (t (k, v)) else alookup init k
      | Option.none => alookup init k := by
  induction entries generalizing init with
  | nil => simp [applyEntries, alookup]
  | cons kv rest ih =>
    obtain ⟨a, v⟩ := kv
    simp only [akeys, List.map_cons, List.nodup_cons] at hn
    rw [applyEntries_cons]
    by_cases hk : a = k
    · subst hk
      have hnone : alookup rest a = Option.none :=
        alookup_eq_none_of_not_mem (by simpa [akeys] using hn.1)
      rw [ih _ (by simpa [akeys] using hn.2)]
      rw [hnone]
      by_cases hp : p (a, v) <;> simp [alookup, hp, alookup_aset_self]
    · rw [ih _ (by simpa [akeys] using hn.2)]
      have hcons : alookup ((a, v) :: rest) k = alookup rest k := by
        simp [alookup, hk]
      rw [hcons]
      by_cases hp : p (a, v) <;>
        cases hrest : alookup rest k <;>
          simp [hp, alookup_aset_ne _ _ (fun he : k = a => hk he.symm)]

theorem nodup_akeys_applyEntries {α : Type} (p : String × α → Bool)
    (t : String × α → α) (entries : List (String × α))
    (init : List (String × α)) (h : (akeys init).Nodup) :
    (akeys (applyEntries p t init entries)).Nodup := by
  induction entries generalizing init with
  | nil => exact h
  | cons kv rest ih =>
    rw [applyEntries_cons]
    by_cases hp : p kv
    · rw [if_pos hp]; exact ih _ (nodup_akeys_aset kv.1 (t kv) h)
    · rw [if_neg hp]; exact ih _ h

theorem akeys_applyEntries {α : Type} (p : String × α → Bool)
    (t : String × α → α) (entries init : List (String × α))
    (hd : ∀ kv ∈ entries, kv.1 ∉ akeys init) (hn : (akeys entries).Nodup) :
    akeys (applyEntries p t init entries) =
      akeys init ++ (entries.filter p).map Prod.fst := by
  induction entries generalizing init with
  | nil => simp [applyEntries]
  | cons kv rest ih =>
    rw [applyEntries_cons]
    simp only [akeys, List.map_cons, List.nodup_cons] at hn
    by_cases hp : p kv
    · rw [if_pos hp]
      have hk : kv.1 ∉ akeys init := hd kv (List.mem_cons_self _ _)
      have hkeys := akeys_aset_not_mem init kv.1 (t kv) hk
      rw [ih _ ?_ (by simpa [akeys] using hn.2), hkeys]
      · rw [List.filter_cons_of_pos hp, List.map_cons]
        simp
      · intro kv2 h2
        rw [hkeys]
        simp only [List.mem_append, List.mem_singleton]
        push_neg
        refine ⟨hd kv2 (List.mem_cons_of_mem _ h2), fun he => ?_⟩
        exact hn.1 (he ▸ List.mem_map_of_mem Prod.fst h2)
    · rw [if_neg hp,
        ih _ (fun kv2 h2 => hd kv2 (List.mem_cons_of_mem _ h2))
          (by simpa [akeys] using hn.2),
        List.filter_cons_of_neg hp]

theorem alookup_of_mem_nodup {α : Type} {d : List (String × α)} {k : String}
    {v : α} (hmem : (k, v) ∈ d) (hn : (akeys d).Nodup) :
    alookup d k = some v := by
  induction d with
  | nil => simp at hmem
  | cons kv rest ih =>
    obtain ⟨a, w⟩ := kv
    simp only [akeys, List.map_cons, List.nodup_cons] at hn
    rcases List.mem_cons.mp hmem with he | hmem2
    · obtain ⟨rfl, rfl⟩ := Prod.mk.injEq k v a w ▸ he
      simp [alookup]
    · have hk : a ≠ k := by
        rintro rfl
        exact hn.1 (List.mem_map_of_mem Prod.fst hmem2)
      simp [alookup, hk, ih hmem2 (by simpa [akeys] using hn.2)]

theorem mem_of_alookup_eq_some {α : Type} {d : List (String × α)} {k : String}
    {v : α} (h : alookup d k = some v) : (k, v) ∈ d := by
  induction d with
  | nil => simp [alookup] at h
  | cons kv rest ih =>
    obtain ⟨a, w⟩ := kv
    by_cases hk : a = k
    · subst hk
      have h2 : w = v := by simpa [alookup] using h
      subst h2
      exact List.mem_cons_self _ _
    · simp only [alookup, if_neg hk] at h
      exact List.mem_cons_of_mem _ (ih h)

/-! ### Lexicographic string order lemmas -/

theorem charListLe_cons_iff (a b : Char) (as bs : List Char) :
    charListLe (a :: as) (b :: bs) = true ↔
      a.toNat < b.toNat ∨ (a.toNat = b.toNat ∧ charListLe as bs = true) := by
  by_cases h1 : a.toNat < b.toNat
  · simp [charListLe, h1]
  · by_cases h2 : b.toNat < a.toNat
    · have hne : ¬(a.toNat = b.toNat) := by omega
      simp [charListLe, h1, h2, hne]
    · have he : a.toNat = b.toNat := by omega
      simp [charListLe, h1, h2, he]

theorem charListLe_total : ∀ as bs : List Char,
    charListLe as bs = true ∨ charListLe bs as = true := by
  intro as
  induction as with
  | nil => intro bs; left; rfl
  | cons a as ih =>
    intro bs
    cases bs with
    | nil => right; rfl
    | cons b bs =>
      rcases Nat.lt_trichotomy a.toNat b.toNat with h | h | h
      · left; rw [charListLe_cons_iff]; exact Or.inl h
      · rcases ih bs with h2 | h2
        · left; rw [charListLe_cons_iff]; exact Or.inr ⟨h, h2⟩
        · right; rw [charListLe_cons_iff]; exact Or.inr ⟨h.symm, h2⟩
      · right; rw [charListLe_cons_iff]; exact Or.inl h

theorem charListLe_trans : ∀ as bs cs : List Char,
    charListLe as bs = true → charListLe bs cs = true →
    charListLe as cs = true := by
  intro as
  induction as with
  | nil => intro bs cs _ _; rfl
  | cons a as ih =>
    intro bs cs hab hbc
    cases bs with
    | nil => simp [charListLe] at hab
    | cons b bs =>
      cases cs with
      | nil => simp [charListLe] at hbc
      | cons c cs =>
        rw [charListLe_cons_iff] at hab hbc ⊢
        rcases hab with h1 | ⟨h1, h1r⟩ <;> rcases hbc with h2 | ⟨h2, h2r⟩
        · exact Or.inl (Nat.lt_trans h1 h2)
        · exact Or.inl (h2 ▸ h1)
        · exact Or.inl (h1 ▸ h2)
        · exact Or.inr ⟨h1.trans h2, ih bs cs h1r h2r⟩

theorem pyStrLe_total (a b : String) :
    pyStrLe a b = true ∨ pyStrLe b a = true :=
  charListLe_total _ _

theorem pyStrLe_trans {a b c : String} (h1 : pyStrLe a b = true)
    (h2 : pyStrLe b c = true) : pyStrLe a c = true :=
  charListLe_trans _ _ _ h1 h2

/-! ### Bridging lemmas between the source loops and `applyEntries` -/

theorem nonEmptyVal_iff (v : PyVal) :
    nonEmptyVal v = true ↔ v ≠ PyVal.none ∧ v ≠ PyVal.str "" := by
  cases v with
  | none => simp [nonEmptyVal]
  | str s => by_cases hs : s = "" <;> simp [nonEmptyVal, hs]
  | int n => simp [nonEmptyVal]

theorem merge_profile_eq_applyEntries (m i : PyDict) :
    Intro.merge_profile m i =
      applyEntries (fun kv => nonEmptyVal kv.2) (fun kv => kv.2) m i := rfl

theorem persist_memory_eq_applyEntries (m pr : PyDict) :
    Intro.persist_memory m pr =
      applyEntries (fun kv => nonEmptyVal kv.2) (fun kv => kv.2) m pr := rfl

theorem intro_update_foldl_eq (updates : PyDict) (init : PyDict) :
    updates.foldl
      (fun p kv =>
        if kv.2 = PyVal.none ∨ kv.2 = PyVal.str "" then p
        else aset p kv.1 (if kv.1 = "age" then age_coerce kv.2 else kv.2))
      init =
      applyEntries (fun kv => nonEmptyVal kv.2)
        (fun kv => if kv.1 = "age" then age_coerce kv.2 else kv.2)
        init updates := by
  induction updates generalizing init with
  | nil => rfl
  | cons kv rest ih =>
    rw [List.foldl_cons, applyEntries_cons]
    have hiff : (kv.2 = PyVal.none ∨ kv.2 = PyVal.str "") ↔
        ¬(nonEmptyVal kv.2 = true) := by
      rw [nonEmptyVal_iff]; tauto
    by_cases hp : nonEmptyVal kv.2
    · rw [if_neg (fun hin => (hiff.mp hin) hp), if_pos hp]; exact ih _
    · rw [if_pos (by tauto), if_neg hp]; exact ih _

theorem exp_update_foldl_split (updates : StrDict) (a b : StrDict) :
    updates.foldl
      (fun (acc : StrDict × StrDict) kv =>
        if Exp.validEntry kv then
          (aset acc.1 kv.1 (pyStrip kv.2), aset acc.2 kv.1 (pyStrip kv.2))
        else acc)
      (a, b) =
      (applyEntries Exp.validEntry (fun kv => pyStrip kv.2) a updates,
       applyEntries Exp.validEntry (fun kv => pyStrip kv.2) b updates) := by
  induction updates generalizing a b with
  | nil => rfl
  | cons kv rest ih =>
    rw [List.foldl_cons, applyEntries_cons, applyEntries_cons]
    by_cases hp : Exp.validEntry kv
    · rw [if_pos hp, if_pos hp, if_pos hp]; exact ih _ _
    · rw [if_neg hp, if_neg hp, if_neg hp]; exact ih _ _

/-! ### Claim theorems -/

/-- C6: for every memory record and incoming record (whose keys are
distinct, as for any Python dict), `_merge_profile` yields for each field
the incoming value when it is non-`None` and non-empty and otherwise the
memory value; consequently a field holding a non-empty value in memory is
never cleared by a merge, only overwritten by another non-empty value. -/
theorem C6_merge_field_semantics (m i : PyDict) (hi : (akeys i).Nodup) :
    (∀ k v, alookup i k = some v → nonEmptyVal v = true →
      alookup (Intro.merge_profile m i) k = some v) ∧
    (∀ k v, alookup i k = some v → nonEmptyVal v = false →
      alookup (Intro.merge_profile m i) k = alookup m k) ∧
    (∀ k, alookup i k = Option.none →
      alookup (Intro.merge_profile m i) k = alookup m k) ∧
    (∀ k v, alookup m k = some v → nonEmptyVal v = true →
      ∃ w, alookup (Intro.merge_profile m i) k = some w ∧
        nonEmptyVal w = true) := by
  have hchar := fun k =>
    applyEntries_lookup (fun kv => nonEmptyVal kv.2) (fun kv => kv.2) i m k hi
  refine ⟨?_, ?_, ?_, ?_⟩
  · intro k v hik hv
    rw [merge_profile_eq_applyEntries, hchar k, hik]
    simp [hv]
  · intro k v hik hv
    rw [merge_profile_eq_applyEntries, hchar k, hik]
    simp [hv]
  · intro k hik
    rw [merge_profile_eq_applyEntries, hchar k, hik]
  · intro k v hm hv
    rw [merge_profile_eq_applyEntries, hchar k]
    cases hik : alookup i k with
    | none => exact ⟨v, by rw [hm], hv⟩
    | some w =>
      by_cases hw : nonEmptyVal w
      · exact ⟨w, by simp [hw], hw⟩
      · refine ⟨v, ?_, hv⟩
        simp [hw, hm]

/-- C6 witness: the merge semantics evaluated on one concrete memory and
incoming record. -/
theorem C6_merge_field_semantics_witness :
    (akeys [("age", PyVal.int 30), ("name", PyVal.str "")]).Nodup ∧
    alookup
      (Intro.merge_profile [("name", PyVal.str "John"), ("age", PyVal.none)]
        [("age", PyVal.int 30), ("name", PyVal.str "")]) "age" =
      some (PyVal.int 30) :=
  ⟨by decide,
    (C6_merge_field_semantics
      [("name", PyVal.str "John"), ("age", PyVal.none)]
      [("age", PyVal.int 30), ("name", PyVal.str "")] (by decide)).1 "age"
      (PyVal.int 30) (by decide) (by decide)⟩

/-- C8: `_merge_profile` is idempotent with respect to re-merging its own
result: merging `merge m i` with the same memory `m` again gives the same
dictionary, key by key (Python dict equality is pointwise equality of
lookups). -/
theorem C8_merge_idempotent (m i : PyDict) (hm : (akeys m).Nodup)
    (hi : (akeys i).Nodup) (k : String) :
    alookup (Intro.merge_profile m (Intro.merge_profile m i)) k =
      alookup (Intro.merge_profile m i) k := by
  have hmi : (akeys (Intro.merge_profile m i)).Nodup := by
    rw [merge_profile_eq_applyEntries]
    exact nodup_akeys_applyEntries _ _ _ _ hm
  have h1 := applyEntries_lookup (fun kv => nonEmptyVal kv.2) (fun kv => kv.2)
    (Intro.merge_profile m i) m k hmi
  have h2 := applyEntries_lookup (fun kv => nonEmptyVal kv.2) (fun kv => kv.2)
    i m k hi
  rw [merge_profile_eq_applyEntries m (Intro.merge_profile m i), h1]
  rw [merge_profile_eq_applyEntries m i]
  rw [h2]
  cases hik : alookup i k with
  | none =>
    cases hmk : alookup m k with
    | none => simp
    | some w => by_cases hw : nonEmptyVal w <;> simp [hw, hmk]
  | some v =>
    by_cases hv : nonEmptyVal v
    · simp [hv]
    · simp only [hv, Bool.false_eq_true, if_false]
      cases hmk : alookup m k with
      | none => simp
      | some w => by_cases hw : nonEmptyVal w <;> simp [hw, hmk]

/-- C8 witness: idempotence evaluated on one concrete memory and incoming
record and key. -/
theorem C8_merge_idempotent_witness :
    (akeys [("name", PyVal.str "John"), ("age", PyVal.str "")]).Nodup ∧
    (akeys [("age", PyVal.int 30), ("name", PyVal.str "")]).Nodup ∧
    alookup
      (Intro.merge_profile [("name", PyVal.str "John"), ("age", PyVal.str "")]
        (Intro.merge_profile
          [("name", PyVal.str "John"), ("age", PyVal.str "")]
          [("age", PyVal.int 30), ("name", PyVal.str "")])) "name" =
      alookup
        (Intro.merge_profile
          [("name", PyVal.str "John"), ("age", PyVal.str "")]
          [("age", PyVal.int 30), ("name", PyVal.str "")]) "name" :=
  ⟨by decide, by decide,
    C8_merge_idempotent [("name", PyVal.str "John"), ("age", PyVal.str "")]
      [("age", PyVal.int 30), ("name", PyVal.str "")]
      (by decide) (by decide) "name"⟩

/-- C9: for `profile_data` whose `name` entry (when present) is `None` or a
string, the guard at the top of `run_experience_session` raises exactly when
the entry is absent, `None`, or the empty string, and never raises when the
name is a non-empty string. -/
theorem C9_name_guard (profile_data : PyDict)
    (h : ∀ v, alookup profile_data "name" = some v →
      v = PyVal.none ∨ ∃ s, v = PyVal.str s) :
    (Exp.run_experience_session_guard profile_data =
        Except.error Exp.nameRequiredMsg ↔
      (alookup profile_data "name" = Option.none ∨
        alookup profile_data "name" = some PyVal.none ∨
        alookup profile_data "name" = some (PyVal.str ""))) ∧
    (Exp.run_experience_session_guard profile_data = Except.ok () ↔
      ∃ s, s ≠ "" ∧ alookup profile_data "name" = some (PyVal.str s)) := by
  unfold Exp.run_experience_session_guard
  cases hlk : alookup profile_data "name" with
  | none => simp [truthyOpt]
  | some v =>
    rcases h v hlk with hv | ⟨s, hv⟩
    · subst hv; simp [truthyOpt, truthy]
    · subst hv
      by_cases hs : s = ""
      · subst hs; simp [truthyOpt, truthy]
      · simp [truthyOpt, truthy, hs]

/-- C9 witness: the guard accepts a concrete profile with a non-empty name
and rejects a concrete profile with an empty name. -/
theorem C9_name_guard_witness :
    Exp.run_experience_session_guard [("name", PyVal.str "Sarah")] =
      Except.ok () ∧
    Exp.run_experience_session_guard [("age", PyVal.int 28)] =
      Except.error Exp.nameRequiredMsg :=
  ⟨(C9_name_guard [("name", PyVal.str "Sarah")]
      (by intro v hv; simp [alookup] at hv; exact Or.inr ⟨"Sarah", hv.symm⟩)).2.mpr
      ⟨"Sarah", by decide, by decide⟩,
    (C9_name_guard [("age", PyVal.int 28)]
      (by intro v hv; simp [alookup] at hv)).1.mpr (Or.inl (by decide))⟩

/-- C10: every finalized record of `_finalize_completed_event` has
`event_id = event_number` (both the session's `experience_no`, defaulting
to 1 when absent), an `event_phase` defaulting to `"experience_" ++
experience_no` when the session has no truthy `stage` value, and
`is_complete = true`; the call always sets `session_complete` to true. -/
theorem C10_finalize_invariants (s : Exp.ExpSession) :
    (Exp.finalize_completed_event s).1.event_id =
      (Exp.finalize_completed_event s).1.event_number ∧
    (Exp.finalize_completed_event s).1.event_number =
      s.experience_no.getD 1 ∧
    ((s.stage = Option.none ∨ s.stage = some "") →
      (Exp.finalize_completed_event s).1.event_phase =
        "experience_" ++ toString (s.experience_no.getD 1)) ∧
    (Exp.finalize_completed_event s).1.is_complete = true ∧
    (Exp.finalize_completed_event s).2.session_complete = true := by
  refine ⟨rfl, rfl, ?_, rfl, rfl⟩
  rintro (h | h) <;> simp [Exp.finalize_completed_event, h]

/-- C10 witness: the invariants evaluated on the default session (absent
`experience_no` and `stage`). -/
theorem C10_finalize_invariants_witness :
    (Exp.finalize_completed_event {}).1.event_phase =
      "experience_" ++ toString ((({} : Exp.ExpSession)).experience_no.getD 1) ∧
    (Exp.finalize_completed_event {}).2.session_complete = true :=
  ⟨(C10_finalize_invariants {}).2.2.1 (Or.inl rfl),
    (C10_finalize_invariants {}).2.2.2.2⟩

/-- C1 counterexample: `confirm_profile` sets the session-level confirmation
flag even on a session whose profile has every required field missing; the
transition is not guarded by any completeness check. -/
theorem C1_counterexample :
    (Intro.confirm_profile ⟨[], false⟩).1.profile_confirmed = true ∧
    (Intro.check_profile_completeness ⟨[], false⟩).1 = Intro.PROFILE_FIELDS ∧
    specMissingFieldsPy [] Intro.PROFILE_FIELDS = Intro.PROFILE_FIELDS :=
  ⟨rfl, by decide, by decide⟩

/-- C1 (amended): `confirm_completeness` fires the completion transition
only when the missing-field list of the record is empty (in the untrimmed,
truthiness sense the code computes), and the confirmation-phrase branch of
the run loop fires only when every required field has a non-empty trimmed
value (the spec-level `missingFields` is empty); `confirm_profile`, however,
sets `profile_confirmed` unconditionally, with no completeness guard. -/
theorem C1_confirmation_transition_guards :
    (∀ s : Exp.ExpSession, s.session_complete = false →
      (Exp.confirm_completeness s).1.session_complete = true →
      Exp.event_missing_fields s.current_event = []) ∧
    (∀ (s : Exp.ExpSession) (msg : String)
      (r : Exp.EventDetails × Exp.ExpSession),
      Exp.run_loop_confirm_branch s msg = some r →
      specMissingFields s.current_event Exp.REQUIRED_EVENT_FIELDS = []) ∧
    (∀ s : Intro.IntroSession,
      (Intro.confirm_profile s).1.profile_confirmed = true) := by
  refine ⟨?_, ?_, fun s => rfl⟩
  · intro s hfalse htrue
    by_cases h : Exp.event_missing_fields s.current_event = []
    · exact h
    · exfalso
      simp [Exp.confirm_completeness, h, hfalse] at htrue
  · intro s msg r hbr
    unfold Exp.run_loop_confirm_branch at hbr
    by_cases hc : Exp.is_confirmation_phrase msg &&
        Exp.all_required_fields_present s
    · have hall : Exp.all_required_fields_present s = true :=
        (Bool.and_eq_true _ _ |>.mp hc).2
      unfold specMissingFields
      rw [List.filter_eq_nil_iff]
      intro f hf
      unfold Exp.all_required_fields_present at hall
      rw [List.all_eq_true] at hall
      have hfld := hall f hf
      cases hlk : alookup s.current_event f with
      | none => rw [hlk] at hfld; simp at hfld
      | some v =>
        rw [hlk] at hfld
        have hfld2 : (if v = "" ∨ pyStrip v = "" then false else true) = true :=
          hfld
        by_cases hv : v = "" ∨ pyStrip v = ""
        · rw [if_pos hv] at hfld2; exact absurd hfld2 (by simp)
        · push_neg at hv
          simp [hv.2]
    · rw [if_neg (by simpa using hc)] at hbr
      exact absurd hbr (by simp)

/-- C1 witness: the amended guards evaluated on a fully collected event
record, a confirmation message, and the empty introduction session. -/
theorem C1_confirmation_transition_guards_witness :
    Exp.event_missing_fields
      [("event_overview", "a"), ("when_happened", "b"),
        ("what_happened", "c"), ("peak_moment", "d")] = [] ∧
    specMissingFields
      [("event_overview", "a"), ("when_happened", "b"),
        ("what_happened", "c"), ("peak_moment", "d")]
      Exp.REQUIRED_EVENT_FIELDS = [] ∧
    (Intro.confirm_profile ⟨[], false⟩).1.profile_confirmed = true :=
  ⟨C1_confirmation_transition_guards.1
      { current_event := [("event_overview", "a"), ("when_happened", "b"),
          ("what_happened", "c"), ("peak_moment", "d")] }
      rfl (by decide),
    C1_confirmation_transition_guards.2.1
      { current_event := [("event_overview", "a"), ("when_happened", "b"),
          ("what_happened", "c"), ("peak_moment", "d")] }
      "yes"
      (Exp.finalize_completed_event
        { current_event := [("event_overview", "a"), ("when_happened", "b"),
            ("what_happened", "c"), ("peak_moment", "d")] })
      (by decide),
    C1_confirmation_transition_guards.2.2 ⟨[], false⟩⟩

/-- C2 counterexample: on a profile whose five fields all hold the
whitespace-only string, the code reports no missing fields, while the
spec-level `missingFields` (which trims) reports all five. -/
theorem C2_counterexample :
    (Intro.check_profile_completeness
      ⟨[("name", PyVal.str " "), ("age", PyVal.str " "),
        ("current_occupation", PyVal.str " "),
        ("desired_career", PyVal.str " "),
        ("work_experience", PyVal.str " ")], false⟩).1 = [] ∧
    specMissingFieldsPy
      [("name", PyVal.str " "), ("age", PyVal.str " "),
        ("current_occupation", PyVal.str " "),
        ("desired_career", PyVal.str " "),
        ("work_experience", PyVal.str " ")]
      Intro.PROFILE_FIELDS = Intro.PROFILE_FIELDS :=
  ⟨by decide, by decide⟩

/-- C2 (amended): both completeness checks return exactly the subset of the
required fields whose value is falsy (absent, `None`, empty string, zero) —
values are not trimmed, so whitespace-only strings count as present — in
canonical declared order; the returned list is empty iff every required
field is truthy; and neither check mutates the record (an incomplete
`confirm_completeness` returns the session unchanged together with exactly
the missing list). -/
theorem C2_completeness_check_amended :
    (∀ session : Intro.IntroSession,
      (Intro.check_profile_completeness session).1 =
        Intro.PROFILE_FIELDS.filter
          (fun f => !truthyOpt (alookup session.user_profile f))) ∧
    (∀ session : Intro.IntroSession,
      ((Intro.check_profile_completeness session).1 = [] ↔
        ∀ f ∈ Intro.PROFILE_FIELDS,
          truthyOpt (alookup session.user_profile f) = true)) ∧
    (∀ current_event : StrDict,
      (Exp.event_missing_fields current_event).Sublist
        Exp.REQUIRED_EVENT_FIELDS ∧
      (Exp.event_missing_fields current_event = [] ↔
        ∀ f ∈ Exp.REQUIRED_EVENT_FIELDS,
          strTruthyOpt (alookup current_event f) = true)) ∧
    (∀ s : Exp.ExpSession,
      (Exp.confirm_completeness s).1.current_event = s.current_event) ∧
    (∀ (s : Exp.ExpSession) (miss : List String) (msg : String),
      (Exp.confirm_completeness s).2 =
        Exp.ConfirmOutcome.incomplete miss msg →
      (Exp.confirm_completeness s).1 = s ∧
        miss = Exp.event_missing_fields s.current_event) := by
  have hfilter : ∀ session : Intro.IntroSession,
      (Intro.check_profile_completeness session).1 =
        Intro.PROFILE_FIELDS.filter
          (fun f => !truthyOpt (alookup session.user_profile f)) := by
    intro session
    by_cases h1 : truthyOpt (alookup session.user_profile "name") <;>
    by_cases h2 : truthyOpt (alookup session.user_profile "age") <;>
    by_cases h3 : truthyOpt (alookup session.user_profile
      "current_occupation") <;>
    by_cases h4 : truthyOpt (alookup session.user_profile
      "desired_career") <;>
    by_cases h5 : truthyOpt (alookup session.user_profile
      "work_experience") <;>
      simp [Intro.check_profile_completeness, Intro.PROFILE_FIELDS,
        List.filter, h1, h2, h3, h4, h5]
  refine ⟨hfilter, ?_, ?_, ?_, ?_⟩
  · intro session
    rw [hfilter, List.filter_eq_nil_iff]
    simp
  · intro current_event
    refine ⟨List.filter_sublist _, ?_⟩
    unfold Exp.event_missing_fields
    rw [List.filter_eq_nil_iff]
    simp
  · intro s
    simp only [Exp.confirm_completeness]
    split
    · rfl
    · simp [Exp.finalize_completed_event]
  · intro s miss msg h
    by_cases hc : Exp.event_missing_fields s.current_event ≠ []
    · simp only [Exp.confirm_completeness] at h ⊢
      rw [if_pos hc] at h ⊢
      simp at h
      exact ⟨rfl, h.1.symm⟩
    · simp only [Exp.confirm_completeness] at h
      rw [if_neg hc] at h
      simp at h

/-- C2 witness: the amended check evaluated on a concrete session with one
truthy and one whitespace-only field, and the no-mutation guarantee of an
incomplete `confirm_completeness` call on a concrete session. -/
theorem C2_completeness_check_amended_witness :
    (Intro.check_profile_completeness
      ⟨[("name", PyVal.str "John"), ("age", PyVal.str " ")], false⟩).1 =
      Intro.PROFILE_FIELDS.filter
        (fun f => !truthyOpt (alookup
          [("name", PyVal.str "John"), ("age", PyVal.str " ")] f)) ∧
    (Exp.confirm_completeness
      { current_event := [("event_overview", "a")] }).1 =
      ({ current_event := [("event_overview", "a")] } : Exp.ExpSession) :=
  ⟨C2_completeness_check_amended.1
      ⟨[("name", PyVal.str "John"), ("age", PyVal.str " ")], false⟩,
    (C2_completeness_check_amended.2.2.2.2
      { current_event := [("event_overview", "a")] }
      ["when_happened", "what_happened", "peak_moment"]
      ("Still need: " ++ String.intercalate ", "
        ["when_happened", "what_happened", "peak_moment"])
      (by decide)).1⟩

/-- C3 counterexample: the introduction agent's single-field update stores
the value untrimmed: updating `name` with `" John "` stores `" John "`
itself, not its trimmed form `"John"`. -/
theorem C3_counterexample :
    alookup ((Intro.update_profile [] ⟨[], false⟩ "name"
      (PyVal.str " John ")).2.1.user_profile) "name" =
      some (PyVal.str " John ") ∧
    PyVal.str (pyStrip " John ") ≠ PyVal.str " John " :=
  ⟨by decide, by decide⟩

/-- C3 (amended): the experience agent's `update_single_field` stores the
trimmed value for every recognized field and value that does not trim to
empty, overwriting any prior value; the introduction agent's
`update_profile` stores the raw value untrimmed (for every non-`age`
field). -/
theorem C3_single_field_update_amended :
    (∀ (s : Exp.ExpSession) (f v : String), f ∈ Exp.REQUIRED_EVENT_FIELDS →
      pyStrip v ≠ "" →
      alookup ((Exp.update_single_field s f v).1.current_event) f =
        some (pyStrip v)) ∧
    (∀ (memory : PyDict) (session : Intro.IntroSession) (f : String)
      (v : PyVal), f ≠ "age" →
      alookup ((Intro.update_profile memory session f v).2.1.user_profile) f =
        some v) := by
  constructor
  · intro s f v hf hv
    have htrim : pyStrip f = f := by
      have hf2 := hf
      simp [Exp.REQUIRED_EVENT_FIELDS] at hf2
      rcases hf2 with rfl | rfl | rfl | rfl <;> decide
    simp only [Exp.update_single_field]
    rw [htrim, if_neg (by simp [hf]), if_neg hv]
    exact alookup_aset_self _ _ _
  · intro memory session f v hf
    show alookup (aset (Intro.merge_profile memory session.user_profile) f
      (if f = "age" then age_coerce v else v)) f = some v
    rw [if_neg hf]
    exact alookup_aset_self _ _ _

/-- C3 witness: the amended update semantics evaluated on a concrete
experience field and a concrete profile field. -/
theorem C3_single_field_update_amended_witness :
    "event_overview" ∈ Exp.REQUIRED_EVENT_FIELDS ∧ pyStrip " a trip " ≠ "" ∧
    alookup ((Exp.update_single_field {} "event_overview"
      " a trip ").1.current_event) "event_overview" =
      some (pyStrip " a trip ") ∧
    alookup ((Intro.update_profile [] ⟨[], false⟩ "name"
      (PyVal.str "John")).2.1.user_profile) "name" =
      some (PyVal.str "John") :=
  ⟨by decide, by decide,
    C3_single_field_update_amended.1 {} "event_overview" " a trip "
      (by decide) (by decide),
    C3_single_field_update_amended.2 [] ⟨[], false⟩ "name"
      (PyVal.str "John") (by decide)⟩

/-- C4 counterexample: the introduction agent's single-field update accepts
any field name: updating the unrecognized field `"bogus"` mutates the
record instead of leaving it unchanged. -/
theorem C4_counterexample :
    alookup ((Intro.update_profile [] ⟨[], false⟩ "bogus"
      (PyVal.str "x")).2.1.user_profile) "bogus" = some (PyVal.str "x") ∧
    "bogus" ∉ Intro.PROFILE_FIELDS ∧
    (Intro.update_profile [] ⟨[], false⟩ "bogus"
      (PyVal.str "x")).2.1.user_profile ≠ [] :=
  ⟨by decide, by decide, by decide⟩

/-- C4 (amended): the experience agent's `update_single_field` leaves the
whole session unchanged and returns the diagnostic string for every
unrecognized field name; the introduction agent's `update_profile` instead
applies the update for any field name whatsoever, mutating the record. -/
theorem C4_invalid_field_amended :
    (∀ (s : Exp.ExpSession) (f v : String),
      pyStrip f ∉ Exp.REQUIRED_EVENT_FIELDS →
      (Exp.update_single_field s f v).1 = s ∧
      (Exp.update_single_field s f v).2 =
        "Invalid field. Use one of: " ++
          String.intercalate ", " Exp.REQUIRED_EVENT_FIELDS) ∧
    (∀ (memory : PyDict) (session : Intro.IntroSession) (f : String)
      (v : PyVal), f ∉ Intro.PROFILE_FIELDS →
      alookup ((Intro.update_profile memory session f v).2.1.user_profile) f =
        some v) := by
  constructor
  · intro s f v hf
    constructor <;>
      · simp only [Exp.update_single_field]
        rw [if_pos hf]
  · intro memory session f v hf
    have hage : f ≠ "age" := by rintro rfl; exact hf (by decide)
    show alookup (aset (Intro.merge_profile memory session.user_profile) f
      (if f = "age" then age_coerce v else v)) f = some v
    rw [if_neg hage]
    exact alookup_aset_self _ _ _

/-- C4 witness: the amended semantics evaluated on a concrete unrecognized
field for each agent. -/
theorem C4_invalid_field_amended_witness :
    pyStrip "bogus" ∉ Exp.REQUIRED_EVENT_FIELDS ∧
    (Exp.update_single_field {} "bogus" "v").1 = ({} : Exp.ExpSession) ∧
    alookup ((Intro.update_profile [] ⟨[], false⟩ "other"
      (PyVal.str "y")).2.1.user_profile) "other" = some (PyVal.str "y") :=
  ⟨by decide,
    (C4_invalid_field_amended.1 {} "bogus" "v" (by decide)).1,
    C4_invalid_field_amended.2 [] ⟨[], false⟩ "other" (PyVal.str "y")
      (by decide)⟩

/-- C7 counterexample: in the introduction agent's multi-field update, an
empty string supplied for `age` is skipped before the coercion runs, so the
raw empty string is not stored: a prior age value `"5"` survives instead of
being overwritten with `""` as the claim requires on parse failure. -/
theorem C7_counterexample :
    alookup ((Intro.update_multiple_fields []
      ⟨[("age", PyVal.str "5")], false⟩
      [("age", PyVal.str "")]).2.1.user_profile) "age" =
      some (PyVal.str "5") ∧
    PyVal.str "5" ≠ PyVal.str "" :=
  ⟨by decide, by decide⟩

/-- C7 (amended): `update_profile` applies the age coercion to every value
supplied for `age` — the first whitespace-delimited token is parsed as an
integer, the integer is stored on success (`"25 years old"` gives `25`) and
the raw value is stored unchanged on parse failure; `update_multiple_fields`
applies the same coercion to every non-`None`, non-empty `age` value, but
skips empty values entirely, leaving the prior field value in place. -/
theorem C7_age_coercion_amended :
    (∀ (memory : PyDict) (session : Intro.IntroSession) (v : PyVal),
      alookup ((Intro.update_profile memory session "age"
        v).2.1.user_profile) "age" = some (age_coerce v)) ∧
    (∀ (v : PyVal) (tok : String) (n : Int),
      firstToken (pyStrip (pyStr v)) = some tok → pyIntParse tok = some n →
      age_coerce v = PyVal.int n) ∧
    (∀ (v : PyVal) (tok : String),
      firstToken (pyStrip (pyStr v)) = some tok →
      pyIntParse tok = Option.none → age_coerce v = v) ∧
    (∀ v : PyVal, firstToken (pyStrip (pyStr v)) = Option.none →
      age_coerce v = v) ∧
    age_coerce (PyVal.str "25 years old") = PyVal.int 25 ∧
    (∀ (memory : PyDict) (session : Intro.IntroSession) (updates : PyDict),
      (akeys updates).Nodup → alookup updates "age" = some (PyVal.str "") →
      alookup ((Intro.update_multiple_fields memory session
        updates).2.1.user_profile) "age" =
        alookup (Intro.merge_profile memory session.user_profile) "age") := by
  refine ⟨?_, ?_, ?_, ?_, by decide, ?_⟩
  · intro memory session v
    show alookup (aset (Intro.merge_profile memory session.user_profile)
      "age" (if "age" = "age" then age_coerce v else v)) "age" =
      some (age_coerce v)
    rw [if_pos rfl]
    exact alookup_aset_self _ _ _
  · intro v tok n htok hparse
    simp [age_coerce, htok, hparse]
  · intro v tok htok hparse
    simp [age_coerce, htok, hparse]
  · intro v htok
    simp [age_coerce, htok]
  · intro memory session updates hnodup hlk
    show alookup
      (updates.foldl
        (fun p kv =>
          if kv.2 = PyVal.none ∨ kv.2 = PyVal.str "" then p
          else aset p kv.1 (if kv.1 = "age" then age_coerce kv.2 else kv.2))
        (Intro.merge_profile memory session.user_profile)) "age" =
      alookup (Intro.merge_profile memory session.user_profile) "age"
    rw [intro_update_foldl_eq,
      applyEntries_lookup (fun kv => nonEmptyVal kv.2)
        (fun kv => if kv.1 = "age" then age_coerce kv.2 else kv.2)
        updates (Intro.merge_profile memory session.user_profile) "age"
        hnodup,
      hlk]
    simp [nonEmptyVal]

/-- C7 witness: the amended coercion evaluated at the scenario value
`"25 years old"` through `update_profile`, and the skip of an empty `age`
value through `update_multiple_fields`. -/
theorem C7_age_coercion_amended_witness :
    alookup ((Intro.update_profile [] ⟨[], false⟩ "age"
      (PyVal.str "25 years old")).2.1.user_profile) "age" =
      some (age_coerce (PyVal.str "25 years old")) ∧
    (akeys [("age", PyVal.str "")]).Nodup ∧
    alookup ((Intro.update_multiple_fields []
      ⟨[("age", PyVal.str "5")], false⟩
      [("age", PyVal.str "")]).2.1.user_profile) "age" =
      alookup (Intro.merge_profile []
        (⟨[("age", PyVal.str "5")], false⟩ : Intro.IntroSession).user_profile)
        "age" :=
  ⟨C7_age_coercion_amended.1 [] ⟨[], false⟩ (PyVal.str "25 years old"),
    by decide,
    C7_age_coercion_amended.2.2.2.2.2 [] ⟨[("age", PyVal.str "5")], false⟩
      [("age", PyVal.str "")] (by decide) (by decide)⟩

/-- Characterization of the experience agent's `update_multiple_fields`:
the stored record and the reported message in terms of `applyEntries`. -/
theorem exp_update_multiple_fields_spec (s : Exp.ExpSession)
    (updates : StrDict) :
    Exp.update_multiple_fields s updates =
      ({ s with current_event :=
          (applyEntries Exp.validEntry (fun kv => pyStrip kv.2)
            s.current_event updates) },
        if akeys (applyEntries Exp.validEntry (fun kv => pyStrip kv.2)
            [] updates) = []
        then "No valid fields provided."
        else "Stored fields: " ++ String.intercalate ", "
          (List.insertionSort (fun a b => pyStrLe a b = true)
            (akeys (applyEntries Exp.validEntry (fun kv => pyStrip kv.2)
              [] updates)))) := by
  simp only [Exp.update_multiple_fields]
  rw [exp_update_foldl_split]
  by_cases hc : akeys (applyEntries Exp.validEntry (fun kv => pyStrip kv.2)
      [] updates) = [] <;>
    simp [hc]

/-- C5 counterexample: the introduction agent's multi-field update does not
skip entries with unrecognized field names — the unrecognized field
`"bogus"` is applied and stored in the record. -/
theorem C5_counterexample :
    alookup ((Intro.update_multiple_fields [] ⟨[], false⟩
      [("bogus", PyVal.str "x")]).2.1.user_profile) "bogus" =
      some (PyVal.str "x") ∧
    "bogus" ∉ Intro.PROFILE_FIELDS :=
  ⟨by decide, by decide⟩

/-- C5 (amended): the experience agent's `update_multiple_fields` behaves as
claimed — it skips entries with unrecognized names or empty/whitespace-only
values without failing the call, stores the trimmed value of every valid
entry, and reports exactly the applied field names in lexicographically
sorted order; the introduction agent's version, however, applies every entry
with a non-`None`, non-empty value regardless of field name (untrimmed,
with the age coercion) and its message lists every key of the updates
mapping in mapping order, not the applied set. -/
theorem C5_multi_field_update_amended :
    (∀ (s : Exp.ExpSession) (updates : StrDict), (akeys updates).Nodup →
      (∀ f v, (f, v) ∈ updates → Exp.validEntry (f, v) = true →
        alookup ((Exp.update_multiple_fields s updates).1.current_event) f =
          some (pyStrip v)) ∧
      (∀ k, k ∉ (updates.filter Exp.validEntry).map Prod.fst →
        alookup ((Exp.update_multiple_fields s updates).1.current_event) k =
          alookup s.current_event k) ∧
      (updates.filter Exp.validEntry = [] →
        (Exp.update_multiple_fields s updates).2 =
          "No valid fields provided.") ∧
      (updates.filter Exp.validEntry ≠ [] →
        ∃ sorted_names : List String,
          (Exp.update_multiple_fields s updates).2 =
            "Stored fields: " ++ String.intercalate ", " sorted_names ∧
          List.Sorted (fun a b => pyStrLe a b = true) sorted_names ∧
          sorted_names.Perm
            ((updates.filter Exp.validEntry).map Prod.fst))) ∧
    (∀ (memory : PyDict) (session : Intro.IntroSession) (updates : PyDict),
      (akeys updates).Nodup →
      (∀ f v, (f, v) ∈ updates → nonEmptyVal v = true →
        alookup ((Intro.update_multiple_fields memory session
          updates).2.1.user_profile) f =
          some (if f = "age" then age_coerce v else v)) ∧
      (Intro.update_multiple_fields memory session updates).2.2 =
        "Updated multiple fields: " ++ pyStrListRepr (akeys updates)) := by
  constructor
  · intro s updates hnodup
    have happ : akeys (applyEntries Exp.validEntry (fun kv => pyStrip kv.2)
        [] updates) = (updates.filter Exp.validEntry).map Prod.fst := by
      rw [akeys_applyEntries Exp.validEntry (fun kv => pyStrip kv.2)
        updates [] (by intro kv hkv; simp [akeys]) hnodup]
      rfl
    refine ⟨?_, ?_, ?_, ?_⟩
    · intro f v hmem hvalid
      rw [exp_update_multiple_fields_spec]
      have hlk : alookup updates f = some v := alookup_of_mem_nodup hmem hnodup
      show alookup (applyEntries Exp.validEntry (fun kv => pyStrip kv.2)
        s.current_event updates) f = some (pyStrip v)
      rw [applyEntries_lookup Exp.validEntry (fun kv => pyStrip kv.2)
        updates s.current_event f hnodup, hlk]
      simp [hvalid]
    · intro k hk
      rw [exp_update_multiple_fields_spec]
      show alookup (applyEntries Exp.validEntry (fun kv => pyStrip kv.2)
        s.current_event updates) k = alookup s.current_event k
      rw [applyEntries_lookup Exp.validEntry (fun kv => pyStrip kv.2)
        updates s.current_event k hnodup]
      cases hlk : alookup updates k with
      | none => rfl
      | some w =>
        by_cases hw : Exp.validEntry (k, w)
        · exfalso
          apply hk
          have hmem : (k, w) ∈ updates.filter Exp.validEntry :=
            List.mem_filter.mpr ⟨mem_of_alookup_eq_some hlk, hw⟩
          exact List.mem_map_of_mem Prod.fst hmem
        · simp [hw]
    · intro hempty
      rw [exp_update_multiple_fields_spec]
      show (if akeys (applyEntries Exp.validEntry (fun kv => pyStrip kv.2)
          [] updates) = [] then "No valid fields provided."
        else "Stored fields: " ++ String.intercalate ", "
          (List.insertionSort (fun a b => pyStrLe a b = true)
            (akeys (applyEntries Exp.validEntry (fun kv => pyStrip kv.2)
              [] updates)))) = "No valid fields provided."
      rw [if_pos (by rw [happ, hempty]; rfl)]
    · intro hne
      haveI htot : IsTotal String (fun a b : String => pyStrLe a b = true) :=
        ⟨pyStrLe_total⟩
      haveI htr : IsTrans String (fun a b : String => pyStrLe a b = true) :=
        ⟨fun a b c => pyStrLe_trans⟩
      refine ⟨List.insertionSort (fun a b => pyStrLe a b = true)
        ((updates.filter Exp.validEntry).map Prod.fst), ?_, ?_, ?_⟩
      · rw [exp_update_multiple_fields_spec]
        show (if akeys (applyEntries Exp.validEntry (fun kv => pyStrip kv.2)
            [] updates) = [] then "No valid fields provided."
          else "Stored fields: " ++ String.intercalate ", "
            (List.insertionSort (fun a b => pyStrLe a b = true)
              (akeys (applyEntries Exp.validEntry (fun kv => pyStrip kv.2)
                [] updates)))) =
          "Stored fields: " ++ String.intercalate ", "
            (List.insertionSort (fun a b => pyStrLe a b = true)
              ((updates.filter Exp.validEntry).map Prod.fst))
        rw [happ, if_neg (by simpa using hne)]
      · exact List.sorted_insertionSort _ _
      · exact List.perm_insertionSort _ _
  · intro memory session updates hnodup
    constructor
    · intro f v hmem hval
      show alookup
        (updates.foldl
          (fun p kv =>
            if kv.2 = PyVal.none ∨ kv.2 = PyVal.str "" then p
            else aset p kv.1
              (if kv.1 = "age" then age_coerce kv.2 else kv.2))
          (Intro.merge_profile memory session.user_profile)) f =
        some (if f = "age" then age_coerce v else v)
      rw [intro_update_foldl_eq,
        applyEntries_lookup (fun kv => nonEmptyVal kv.2)
          (fun kv => if kv.1 = "age" then age_coerce kv.2 else kv.2)
          updates (Intro.merge_profile memory session.user_profile) f
          hnodup,
        alookup_of_mem_nodup hmem hnodup]
      simp [hval]
    · rfl

/-- C5 witness: the amended multi-field semantics evaluated on concrete
update mappings for both agents. -/
theorem C5_multi_field_update_amended_witness :
    (akeys [("peak_moment", " the peak "), ("event_overview", "trip")]).Nodup ∧
    Exp.validEntry ("peak_moment", " the peak ") = true ∧
    alookup ((Exp.update_multiple_fields {}
      [("peak_moment", " the peak "), ("event_overview", "trip")]
      ).1.current_event) "peak_moment" = some (pyStrip " the peak ") ∧
    (akeys [("name", PyVal.str "John")]).Nodup ∧
    (Intro.update_multiple_fields [] ⟨[], false⟩
      [("name", PyVal.str "John")]).2.2 =
      "Updated multiple fields: " ++
        pyStrListRepr (akeys [("name", PyVal.str "John")]) :=
  ⟨by decide, by decide,
    (C5_multi_field_update_amended.1 {}
      [("peak_moment", " the peak "), ("event_overview", "trip")]
      (by decide)).1 "peak_moment" " the peak " (by decide) (by decide),
    by decide,
    (C5_multi_field_update_amended.2 [] ⟨[], false⟩
      [("name", PyVal.str "John")] (by decide)).2⟩
